import Mathlib

/-! Shallow embedding of the Little Navmap route core (`src/route/route.cpp`).
C++ floats are modelled as exact rationals, C++ `int` as `ℤ` with the
`std::numeric_limits` sentinels written out, and the external atools / Marble
geometry primitives (spec section 6 collaborators) as an oracle record
`GeoPrims`. -/

namespace LNM

/-- Classification of a point-to-line distance result
(`atools::geo::LineDistance::status`, external atools library). -/
inductive LineStatus where
  | INVALID
  | ALONG_TRACK
  | BEFORE_START
  | AFTER_END
deriving DecidableEq, Repr

/-- Result of `atools::geo::Pos::distanceMeterToLine` (external atools):
signed cross-track distance plus along-track distances from both endpoints. -/
structure LineDistance where
  status : LineStatus
  distance : ℚ
  distanceFrom1 : ℚ
  distanceFrom2 : ℚ
deriving DecidableEq, Repr

/-- Geographic position (`atools::geo::Pos`, external atools); `valid`
models `Pos::isValid()`. -/
structure Pos where
  lonX : ℚ
  latY : ℚ
  altitude : ℚ
  valid : Bool
deriving DecidableEq, Repr

/-- The default-constructed, invalid position (`atools::geo::EMPTY_POS`). -/
def EMPTY_POS : Pos := { lonX := 0, latY := 0, altitude := 0, valid := false }

/-- Position equality (`atools::geo::Pos::operator==`, external atools):
compares the coordinates. -/
def Pos.eq (a b : Pos) : Bool := decide (a.lonX = b.lonX ∧ a.latY = b.latY)

/-- Position plus live course sample (`map::PosCourse`). -/
structure PosCourse where
  pos : Pos
  course : ℚ
deriving DecidableEq, Repr

/-- Modelled from the spec: `map::PosCourse::isValid` (common/maptypes.h is
not under src/); a sample is valid when its position is valid. -/
def PosCourse.isValid (p : PosCourse) : Bool := p.pos.valid

/-- Modelled from the spec: the "no index" sentinel `map::INVALID_INDEX_VALUE`
(`std::numeric_limits<int>::max()`; common/maptypes.h is not under src/). -/
def INVALID_INDEX_VALUE : ℤ := 2147483647

/-- Modelled from the spec: the "invalid distance" sentinel
`map::INVALID_DISTANCE_VALUE` (`std::numeric_limits<float>::max()`,
written out exactly). -/
def INVALID_DISTANCE_VALUE : ℚ := 340282346638528859811704183484516925440

/-- Modelled from the spec: `map::INVALID_COURSE_VALUE`
(`std::numeric_limits<float>::max()`). -/
def INVALID_COURSE_VALUE : ℚ := 340282346638528859811704183484516925440

/-- `atools::geo::nmToMeter` (external atools): nautical miles to meters. -/
def nmToMeter (value : ℚ) : ℚ := value * 1852

/-- `atools::geo::meterToNm` (external atools): meters to nautical miles. -/
def meterToNm (value : ℚ) : ℚ := value / 1852

/-- C `fmod` (`atools::mod`) on exact rationals, for the nonnegative
dividends used here. -/
def floatMod (a b : ℚ) : ℚ := a - b * (⌊a / b⌋ : ℤ)

/-- `atools::geo::normalizeCourse` (external atools): course into [0, 360). -/
def normalizeCourse (course : ℚ) : ℚ := floatMod (course + 360) 360

/-- Modelled from the spec: procedure-leg type tags (`proc::ProcedureLegType`,
common/proctypes.h is not under src/); only tags route.cpp tests are
distinguished, every other tag is `OTHER_LEG`. -/
inductive ProcLegType where
  | INITIAL_FIX
  | START_OF_PROCEDURE
  | PROCEDURE_TURN
  | HOLD_TO_ALTITUDE
  | HOLD_TO_FIX
  | HOLD_TO_MANUAL_TERMINATION
  | OTHER_LEG
deriving DecidableEq, Repr

/-- Modelled from the spec: `proc::MapProcedureTypes` bitmask values
(common/proctypes.h is not under src/). -/
def PROCEDURE_APPROACH : ℕ := 1

def PROCEDURE_MISSED : ℕ := 2

def PROCEDURE_TRANSITION : ℕ := 4

def PROCEDURE_SID : ℕ := 8

def PROCEDURE_SID_TRANSITION : ℕ := 16

def PROCEDURE_STAR : ℕ := 32

def PROCEDURE_STAR_TRANSITION : ℕ := 64

def PROCEDURE_DEPARTURE : ℕ := PROCEDURE_SID ||| PROCEDURE_SID_TRANSITION

def PROCEDURE_STAR_ALL : ℕ := PROCEDURE_STAR ||| PROCEDURE_STAR_TRANSITION

def PROCEDURE_ARRIVAL : ℕ := PROCEDURE_APPROACH ||| PROCEDURE_MISSED ||| PROCEDURE_TRANSITION

def PROCEDURE_ALL : ℕ := PROCEDURE_ARRIVAL ||| PROCEDURE_DEPARTURE ||| PROCEDURE_STAR_ALL

/-- Procedure-leg descriptor (`proc::MapProcedureLeg`): the fields route.cpp
reads. `geometry` backs `RouteLeg::getGeometry`. -/
structure MapProcedureLeg where
  type : ProcLegType
  mapType : ℕ
  line : Pos × Pos
  holdLine : Pos × Pos
  turnDirection : String
  calculatedDistance : ℚ
  geometry : List Pos
deriving DecidableEq, Repr

/-- Modelled from the spec: `proc::MapProcedureLeg::isHold` (proctypes.h is
not under src/): the three holding-pattern leg types. -/
def MapProcedureLeg.isHold (l : MapProcedureLeg) : Bool :=
  decide (l.type = ProcLegType.HOLD_TO_ALTITUDE ∨ l.type = ProcLegType.HOLD_TO_FIX ∨
          l.type = ProcLegType.HOLD_TO_MANUAL_TERMINATION)

/-- Modelled from the spec: `isMissed` tests the missed bit of `mapType`. -/
def MapProcedureLeg.isMissed (l : MapProcedureLeg) : Bool :=
  decide (l.mapType &&& PROCEDURE_MISSED ≠ 0)

/-- Modelled from the spec: departure bits test. -/
def MapProcedureLeg.isAnyDeparture (l : MapProcedureLeg) : Bool :=
  decide (l.mapType &&& PROCEDURE_DEPARTURE ≠ 0)

/-- Modelled from the spec: STAR bits test. -/
def MapProcedureLeg.isAnyStar (l : MapProcedureLeg) : Bool :=
  decide (l.mapType &&& PROCEDURE_STAR_ALL ≠ 0)

/-- Modelled from the spec: arrival bits test. -/
def MapProcedureLeg.isArrival (l : MapProcedureLeg) : Bool :=
  decide (l.mapType &&& PROCEDURE_ARRIVAL ≠ 0)

/-- Modelled from the spec: the `map::MapObjectTypes` bits route.cpp uses
(common/mapflags.h is not under src/); concrete values chosen distinct. -/
def MAP_AIRPORT : ℕ := 1

def MAP_VOR : ℕ := 2

def MAP_NDB : ℕ := 4

def MAP_WAYPOINT : ℕ := 8

def MAP_USER : ℕ := 16

def MAP_MISSED_APPROACH : ℕ := 32

/-- Modelled from the spec: objects that carry a magnetic variation. -/
def NAV_MAGVAR : ℕ := MAP_AIRPORT ||| MAP_VOR ||| MAP_NDB ||| MAP_WAYPOINT

/-- Bounding rectangle (`atools::geo::Rect`), data only. -/
structure Rect where
  west : ℚ
  north : ℚ
  east : ℚ
  south : ℚ
deriving DecidableEq, Repr

/-- One route leg (`RouteLeg`, route/routeleg.h is not under src/): the fields
route.cpp reads and writes. -/
structure RouteLeg where
  position : Pos
  mapObjectType : ℕ
  procedureLeg : MapProcedureLeg
  distanceTo : ℚ
  courseTo : ℚ
  flightplanEntryIndex : ℤ
deriving DecidableEq, Repr

/-- `RouteLeg::getProcedureLegType`. -/
def RouteLeg.getProcedureLegType (l : RouteLeg) : ProcLegType := l.procedureLeg.type

/-- Modelled from the spec: `RouteLeg::getGeometry` yields the procedure
geometry polyline. -/
def RouteLeg.getGeometry (l : RouteLeg) : List Pos := l.procedureLeg.geometry

/-- Modelled from the spec: `RouteLeg::isAnyProcedure` tests the procedure
bits of the leg's procedure map type. -/
def RouteLeg.isAnyProcedure (l : RouteLeg) : Bool :=
  decide (l.procedureLeg.mapType &&& PROCEDURE_ALL ≠ 0)

/-- A default route leg, standing in for the value produced by the C++
out-of-range `QList::at` access (undefined behaviour there). -/
def defaultRouteLeg : RouteLeg :=
  { position := EMPTY_POS, mapObjectType := 0,
    procedureLeg := { type := ProcLegType.OTHER_LEG, mapType := 0,
                      line := (EMPTY_POS, EMPTY_POS), holdLine := (EMPTY_POS, EMPTY_POS),
                      turnDirection := "", calculatedDistance := 0, geometry := [] },
    distanceTo := 0, courseTo := 0, flightplanEntryIndex := 0 }

instance : Inhabited RouteLeg := ⟨defaultRouteLeg⟩

/-- External geometry primitives (atools / Marble, spec section 6): the route
core consumes them as collaborators, so the embedding abstracts them as an
oracle record quantified over in the theorems. -/
structure GeoPrims where
  distanceMeterToLine : Pos → Pos → Pos → LineDistance
  distanceMeterToLineString : List Pos → Pos → LineDistance
  angleDegTo : Pos → Pos → ℚ
  interpolate : Pos → Pos → ℚ → Pos
  interpolateLineString : List Pos → ℚ → Pos
  distanceMeterTo : Pos → Pos → ℚ
  boundingRectFromLineString : List Pos → Rect

/-- The route aggregate (`Route`): the leg list plus the fields route.cpp
uses. The three externally owned procedure blocks (`departureLegs`,
`starLegs`, `arrivalLegs`) are represented by their sizes, which is all
route.cpp reads from them in the functions modelled here. -/
structure Route where
  legs : List RouteLeg
  totalDistance : ℚ
  boundingRect : Rect
  trueCourse : Bool
  shownTypes : ℕ
  activeLeg : ℤ
  activePos : PosCourse
  activeLegResult : LineDistance
  departureLegsOffset : ℤ
  starLegsOffset : ℤ
  arrivalLegsOffset : ℤ
  departureLegsSize : ℕ
  starLegsSize : ℕ
  arrivalLegsSize : ℕ
deriving DecidableEq, Repr

/-- `Route::size` (`QList::size`). -/
def Route.size (r : Route) : ℤ := r.legs.length

/-- `QList::at`, with the C++ out-of-range access left defaulted. -/
def Route.legAt (r : Route) (i : ℤ) : RouteLeg := r.legs.getD i.toNat defaultRouteLeg

/-- `Route::getPositionAt`. -/
def Route.getPositionAt (r : Route) (i : ℤ) : Pos := (r.legAt i).position

/-- Modelled from the spec: `Route::hasAnyDepartureProcedure` = departure
block not empty (route.h is not under src/). -/
def Route.hasAnyDepartureProcedure (r : Route) : Bool := decide (r.departureLegsSize ≠ 0)

/-- Modelled from the spec: `Route::hasAnyStarProcedure`. -/
def Route.hasAnyStarProcedure (r : Route) : Bool := decide (r.starLegsSize ≠ 0)

/-- Modelled from the spec: `Route::hasAnyArrivalProcedure`. -/
def Route.hasAnyArrivalProcedure (r : Route) : Bool := decide (r.arrivalLegsSize ≠ 0)

/-- `Route::resetActive`. -/
def Route.resetActive (r : Route) : Route :=
  { r with
    activeLegResult := { status := LineStatus.INVALID, distance := INVALID_DISTANCE_VALUE,
                         distanceFrom1 := INVALID_DISTANCE_VALUE,
                         distanceFrom2 := INVALID_DISTANCE_VALUE },
    activePos := { pos := EMPTY_POS, course := INVALID_COURSE_VALUE },
    activeLeg := INVALID_INDEX_VALUE }

/-- `Route::isSmaller`: compare cross-track distance fuzzily. -/
def isSmaller (dist1 dist2 : LineDistance) (epsilon : ℚ) : Bool :=
  decide (|dist1.distance| < |dist2.distance| + epsilon)

/-- `Route::canEditLeg`. -/
def Route.canEditLeg (r : Route) (index : ℤ) : Bool :=
  if r.hasAnyDepartureProcedure ∧ index < r.departureLegsOffset + r.departureLegsSize then false
  else if r.hasAnyStarProcedure ∧ index > r.starLegsOffset then false
  else if r.hasAnyArrivalProcedure ∧ index > r.arrivalLegsOffset then false
  else true

/-- Offset scan of `Route::updateIndicesAndOffsets`: one forward pass sets
each leg's flight-plan entry index and records the first departure / STAR /
arrival procedure leg index. -/
def updateOffsetsLoop : List RouteLeg → ℤ → ℤ × ℤ × ℤ → List RouteLeg × (ℤ × ℤ × ℤ)
  | [], _, offsets => ([], offsets)
  | leg :: rest, i, (dep, star, arr) =>
    let leg' := { leg with flightplanEntryIndex := i }
    let dep' := if leg'.procedureLeg.isAnyDeparture ∧ dep = INVALID_INDEX_VALUE then i else dep
    let star' := if leg'.procedureLeg.isAnyStar ∧ star = INVALID_INDEX_VALUE then i else star
    let arr' := if leg'.procedureLeg.isArrival ∧ arr = INVALID_INDEX_VALUE then i else arr
    let res := updateOffsetsLoop rest (i + 1) (dep', star', arr')
    (leg' :: res.1, res.2)

/-- `Route::updateIndicesAndOffsets`. -/
def Route.updateIndicesAndOffsets (r : Route) : Route :=
  let active :=
    if r.activeLeg < INVALID_INDEX_VALUE then max (min r.activeLeg (r.size - 1)) 0
    else r.activeLeg
  let scan := updateOffsetsLoop r.legs 0
    (INVALID_INDEX_VALUE, INVALID_INDEX_VALUE, INVALID_INDEX_VALUE)
  { r with activeLeg := active, legs := scan.1,
           departureLegsOffset := scan.2.1, starLegsOffset := scan.2.2.1,
           arrivalLegsOffset := scan.2.2.2 }

/-- `Route::updateMagvar`; the per-leg magnetic-variation updates
(`RouteLeg::updateMagvar` / `updateInvalidMagvar`, route/routeleg.cpp is not
under src/) touch no field this embedding tracks, so only the `trueCourse`
derivation remains. -/
def Route.updateMagvar (r : Route) : Route :=
  { r with trueCourse := !(r.legs.any fun leg => decide (leg.mapObjectType &&& NAV_MAGVAR ≠ 0)) }

/-- Modelled from the spec: `RouteLeg::updateDistanceAndCourse`
(route/routeleg.cpp is not under src/). Per spec section 4.2 step (4) it
recomputes this leg's distance-to and course-from-previous; no other leg
field changes. -/
def RouteLeg.updateDistanceAndCourse (g : GeoPrims) (leg : RouteLeg) (last : Option RouteLeg) :
    RouteLeg :=
  match last with
  | none => { leg with distanceTo := 0, courseTo := 0 }
  | some prev =>
    { leg with distanceTo := meterToNm (g.distanceMeterTo prev.position leg.position),
               courseTo := normalizeCourse (g.angleDegTo prev.position leg.position) }

/-- `Route::isAirportAfterArrival`. -/
def Route.isAirportAfterArrival (r : Route) (index : ℤ) : Bool :=
  r.hasAnyArrivalProcedure && decide (index = r.size - 1) &&
    decide ((r.legAt index).mapObjectType = MAP_AIRPORT)

/-- Accumulation loop of `Route::updateDistancesAndCourse`. -/
def updateDCLoop (g : GeoPrims) (r : Route) : ℤ → Option RouteLeg → List RouteLeg → List RouteLeg × ℚ
  | _, _, [] => ([], 0)
  | i, last, leg :: rest =>
    if r.isAirportAfterArrival i then (leg :: rest, 0)
    else
      let leg' := leg.updateDistanceAndCourse g last
      let res := updateDCLoop g r (i + 1) (some leg') rest
      (leg' :: res.1, (if leg'.procedureLeg.isMissed then 0 else leg'.distanceTo) + res.2)

/-- `Route::updateDistancesAndCourse`. -/
def Route.updateDistancesAndCourse (g : GeoPrims) (r : Route) : Route :=
  let res := updateDCLoop g r 0 none r.legs
  { r with legs := res.1, totalDistance := res.2 }

/-- `Route::updateBoundingRect`; the Marble line-string box computation is
external and folded into the oracle. -/
def Route.updateBoundingRect (g : GeoPrims) (r : Route) : Route :=
  { r with boundingRect := g.boundingRectFromLineString (r.legs.map RouteLeg.position) }

/-- `Route::updateAll`. -/
def Route.updateAll (g : GeoPrims) (r : Route) : Route :=
  (((r.updateIndicesAndOffsets).updateMagvar).updateDistancesAndCourse g).updateBoundingRect g

/-- The per-pair line distance route.cpp computes for the consecutive leg
pair (i-1, i). -/
def Route.legLineDist (g : GeoPrims) (r : Route) (p : Pos) (i : ℤ) : LineDistance :=
  g.distanceMeterToLine p (r.getPositionAt (i - 1)) (r.getPositionAt i)

/-- Scan loop of `Route::nearestAllLegIndex`; the state triple is
(minDistance, crossTrackDistanceMeter, index). -/
def nearestLoop (g : GeoPrims) (r : Route) (p : Pos) : ℕ → ℤ → ℚ × ℚ × ℤ → ℚ × ℚ × ℤ
  | 0, _, st => st
  | fuel + 1, i, st =>
    if i < r.size then
      let result := r.legLineDist g p i
      let distance := |result.distance|
      if result.status ≠ LineStatus.INVALID ∧ distance < st.1 then
        nearestLoop g r p fuel (i + 1) (distance, result.distance, i)
      else
        nearestLoop g r p fuel (i + 1) st
    else st

/-- `Route::nearestAllLegIndex`, returning
(crossTrackDistanceMeter, index). -/
def Route.nearestAllLegIndex (g : GeoPrims) (r : Route) (pos : PosCourse) : ℚ × ℤ :=
  if !pos.isValid then (INVALID_DISTANCE_VALUE, INVALID_INDEX_VALUE)
  else
    let st := nearestLoop g r pos.pos r.legs.length 1
      (INVALID_DISTANCE_VALUE, INVALID_DISTANCE_VALUE, INVALID_INDEX_VALUE)
    if st.2.1 < INVALID_DISTANCE_VALUE then
      if |st.2.1| > nmToMeter 100 then (INVALID_DISTANCE_VALUE, INVALID_INDEX_VALUE)
      else (st.2.1, st.2.2)
    else (st.2.1, st.2.2)

/-- Scan loop of `Route::getNearestRouteLegResult`; the state pair is
(minResult, index). -/
def nrlrLoop (g : GeoPrims) (r : Route) (pos : Pos) (ignoreNotEditable : Bool) :
    ℕ → ℤ → LineDistance × ℤ → LineDistance × ℤ
  | 0, _, st => st
  | fuel + 1, i, st =>
    if i < r.size then
      if ignoreNotEditable ∧ ¬r.canEditLeg i then
        nrlrLoop g r pos ignoreNotEditable fuel (i + 1) st
      else
        let result := r.legLineDist g pos i
        if result.status ≠ LineStatus.INVALID ∧ |result.distance| < |st.1.distance| then
          nrlrLoop g r pos ignoreNotEditable fuel (i + 1) (result, i)
        else nrlrLoop g r pos ignoreNotEditable fuel (i + 1) st
    else st

/-- The partially initialized `LineDistance` of
`Route::getNearestRouteLegResult` (`status`/`distance` set, the along-track
fields left as they are; the C++ leaves them unwritten, modelled as 0). -/
def nrlrInit : LineDistance :=
  { status := LineStatus.INVALID, distance := INVALID_DISTANCE_VALUE,
    distanceFrom1 := 0, distanceFrom2 := 0 }

/-- `Route::getNearestRouteLegResult`, returning
(index, lineDistanceResult). -/
def Route.getNearestRouteLegResult (g : GeoPrims) (r : Route) (pos : Pos)
    (ignoreNotEditable : Bool) : ℤ × LineDistance :=
  if !pos.valid then (INVALID_INDEX_VALUE, nrlrInit)
  else
    let st := nrlrLoop g r pos ignoreNotEditable r.legs.length 1 (nrlrInit, INVALID_INDEX_VALUE)
    if st.2 ≠ INVALID_INDEX_VALUE then (st.2, st.1) else (st.2, nrlrInit)

/-- Summation loop of `Route::getDistanceFromStart`: legs 1..leg-1, stopping
at the first missed leg. -/
def gdfsLoop (r : Route) (leg : ℤ) : ℕ → ℤ → ℚ → ℚ
  | 0, _, acc => acc
  | fuel + 1, i, acc =>
    if i < leg then
      if !(r.legAt i).procedureLeg.isMissed then
        gdfsLoop r leg fuel (i + 1) (acc + nmToMeter (r.legAt i).distanceTo)
      else acc
    else acc

/-- `Route::getDistanceFromStart`. -/
def Route.getDistanceFromStart (g : GeoPrims) (r : Route) (pos : Pos) : ℚ :=
  let res := r.getNearestRouteLegResult g pos false
  let distFromStart :=
    if res.1 < INVALID_INDEX_VALUE ∧ res.2.status = LineStatus.ALONG_TRACK then
      max (|gdfsLoop r res.1 r.legs.length 1 0 + res.2.distanceFrom1|) 0
    else INVALID_DISTANCE_VALUE
  meterToNm distFromStart

/-- Leg-finding loop of `Route::positionAtDistance`: accumulates
`at(i+1).getDistanceTo()` until the total exceeds the requested distance;
returns (accumulated total, found index). -/
def findLeg : List RouteLeg → ℤ → ℚ → ℚ → ℚ × ℤ
  | [], _, total, _ => (total, INVALID_INDEX_VALUE)
  | leg :: rest, i, total, d =>
    let total' := total + leg.distanceTo
    if total' > d then (total', i) else findLeg rest (i + 1) total' d

/-- `Route::positionAtDistance`. -/
def Route.positionAtDistance (g : GeoPrims) (r : Route) (distFromStartNm : ℚ) : Pos :=
  if distFromStartNm < 0 ∨ distFromStartNm > r.totalDistance then EMPTY_POS
  else
    let res := findLeg (r.legs.drop 1) 0 0 distFromStartNm
    if res.2 < r.size - 1 then
      let foundIndex := res.2 + 1
      if (r.legAt foundIndex).getGeometry.length > 2 then
        let base := distFromStartNm -
          (res.1 - (r.legAt foundIndex).procedureLeg.calculatedDistance)
        let fraction := base / (r.legAt foundIndex).procedureLeg.calculatedDistance
        g.interpolateLineString (r.legAt foundIndex).getGeometry fraction
      else
        let base := distFromStartNm - (res.1 - (r.legAt foundIndex).distanceTo)
        let fraction := base / (r.legAt foundIndex).distanceTo
        g.interpolate (r.getPositionAt (foundIndex - 1)) (r.getPositionAt foundIndex) fraction
    else EMPTY_POS

/-- From-start summation loop of `Route::getRouteDistances`: legs
0..routeIndex, stopping at a missed leg unless the active leg is missed. -/
def grdFromStartLoop (r : Route) (routeIndex : ℤ) (activeIsMissed : Bool) : ℕ → ℤ → ℚ → ℚ
  | 0, _, acc => acc
  | fuel + 1, i, acc =>
    if i ≤ routeIndex then
      if !(r.legAt i).procedureLeg.isMissed || activeIsMissed then
        grdFromStartLoop r routeIndex activeIsMissed fuel (i + 1) (acc + (r.legAt i).distanceTo)
      else acc
    else acc

/-- Missed-leg remainder loop of `Route::getRouteDistances`. -/
def grdMissedLoop (r : Route) : ℕ → ℤ → ℚ → ℚ
  | 0, _, acc => acc
  | fuel + 1, i, acc =>
    if i < r.size then
      grdMissedLoop r fuel (i + 1)
        (acc + if (r.legAt i).procedureLeg.isMissed then (r.legAt i).distanceTo else 0)
    else acc

/-- `Route::getRouteDistances`; the four out-pointers are modelled as
`Option` results (`none` = never written), for non-null pointers. The tuple
is (return value, distFromStart, distToDest, nextLegDistance,
crossTrackDistance). -/
def Route.getRouteDistances (g : GeoPrims) (r : Route) :
    Bool × Option ℚ × Option ℚ × Option ℚ × Option ℚ :=
  if r.activeLeg = INVALID_INDEX_VALUE then (false, none, none, none, none)
  else
    let geometryLeg : Option MapProcedureLeg :=
      if (r.legAt r.activeLeg).isAnyProcedure ∧ (r.legAt r.activeLeg).getGeometry.length > 2 then
        some (r.legAt r.activeLeg).procedureLeg
      else none
    let crossTrackDistance : ℚ :=
      match geometryLeg with
      | some gl =>
        let lineDist := g.distanceMeterToLineString gl.geometry r.activePos.pos
        if lineDist.status = LineStatus.ALONG_TRACK then meterToNm lineDist.distance
        else INVALID_DISTANCE_VALUE
      | none =>
        if r.activeLegResult.status = LineStatus.ALONG_TRACK then
          meterToNm r.activeLegResult.distance
        else INVALID_DISTANCE_VALUE
    if r.activeLeg ≠ INVALID_INDEX_VALUE then
      let routeIndex := if r.activeLeg ≥ r.size then r.size - 1 else r.activeLeg
      let activeIsMissed := (r.legAt r.activeLeg).procedureLeg.isMissed
      let distToCurrent : ℚ :=
        if !(r.legAt routeIndex).procedureLeg.isMissed || activeIsMissed then
          match geometryLeg with
          | some gl =>
            meterToNm (g.distanceMeterToLineString gl.geometry r.activePos.pos).distanceFrom2
          | none => meterToNm (g.distanceMeterTo (r.getPositionAt routeIndex) r.activePos.pos)
        else 0
      let fromstart :=
        |grdFromStartLoop r routeIndex activeIsMissed r.legs.length 0 0 - distToCurrent|
      let distFromStart := max fromstart 0
      let distToDest : ℚ :=
        if !activeIsMissed then max (r.totalDistance - fromstart) 0
        else |grdMissedLoop r r.legs.length (routeIndex + 1) 0 + distToCurrent|
      (true, some distFromStart, some distToDest, some distToCurrent, some crossTrackDistance)
    else (false, none, none, none, some crossTrackDistance)

/-- Initial-fix skip loop of `Route::updateActiveLegAndPos` when the active
leg is not a hold: skip only degenerate zero-length candidate segments. -/
def Route.skipLoopSamePos : Route → ℕ → ℤ → ℤ
  | _, 0, n => n
  | r, fuel + 1, n =>
    if ((r.legAt n).getProcedureLegType = ProcLegType.INITIAL_FIX ∨
        (r.legAt n).getProcedureLegType = ProcLegType.START_OF_PROCEDURE) ∧
       Pos.eq (r.getPositionAt (n - 1)) (r.getPositionAt n) = true ∧ n < r.size - 2 then
      r.skipLoopSamePos fuel (n + 1)
    else n

/-- Initial-fix skip loop when the active leg is a hold: skip every
initial-fix / start-of-procedure candidate. -/
def Route.skipLoopHold : Route → ℕ → ℤ → ℤ
  | _, 0, n => n
  | r, fuel + 1, n =>
    if ((r.legAt n).getProcedureLegType = ProcLegType.INITIAL_FIX ∨
        (r.legAt n).getProcedureLegType = ProcLegType.START_OF_PROCEDURE) ∧ n < r.size - 2 then
      r.skipLoopHold fuel (n + 1)
    else n

/-- The `switchToNextLeg` case analysis of `Route::updateActiveLegAndPos`
(route.cpp lines 221-271). -/
def Route.decideSwitchToNextLeg (g : GeoPrims) (r : Route) (activeLegIdx nextLeg : ℤ)
    (nextLegResult : LineDistance) (courseDiff : ℚ) : Bool :=
  if (r.legAt activeLegIdx).procedureLeg.isHold then
    if Pos.eq (r.legAt nextLeg).procedureLeg.line.1 (r.legAt activeLegIdx).position then
      decide (nextLegResult.status = LineStatus.ALONG_TRACK ∧
              |nextLegResult.distance| < nmToMeter (1/2) ∧
              nextLegResult.distanceFrom1 > nmToMeter (3/4) ∧ courseDiff < 25)
    else
      let resultHold := g.distanceMeterToLine r.activePos.pos
        (r.legAt activeLegIdx).procedureLeg.holdLine.1
        (r.legAt activeLegIdx).procedureLeg.holdLine.2
      decide (resultHold.status = LineStatus.ALONG_TRACK ∧
              resultHold.distance < nmToMeter
                (if (r.legAt activeLegIdx).procedureLeg.turnDirection = "R" then -(1/2) else 1/2))
  else
    if (r.legAt nextLeg).procedureLeg.isHold then
      decide (|nextLegResult.distance| < nmToMeter (1/2))
    else if (r.legAt activeLegIdx).getProcedureLegType = ProcLegType.PROCEDURE_TURN then
      isSmaller nextLegResult r.activeLegResult 100 && decide (courseDiff < 45)
    else
      decide (r.activeLegResult.status = LineStatus.AFTER_END) ||
        (isSmaller nextLegResult r.activeLegResult 10 && decide (courseDiff < 90))

/-- The candidate-selection skip of `updateActiveLegAndPos` (lines 188-203):
start at activeLeg + 1 and skip initial-fix / start-of-procedure candidates
by the hold / non-hold rule. -/
def Route.skipInitialFixes (r : Route) (activeLegIdx : ℤ) : ℤ :=
  if !(r.legAt activeLegIdx).procedureLeg.isHold then
    r.skipLoopSamePos r.legs.length (activeLegIdx + 1)
  else r.skipLoopHold r.legs.length (activeLegIdx + 1)

/-- Candidate-advance phase of `Route::updateActiveLegAndPos` (lines
183-285), entered with the active leg and its line distance already set. -/
def Route.ualpAdvance (g : GeoPrims) (r2 : Route) (pos : PosCourse) : Route :=
  if r2.activeLeg + 1 < r2.size then
    let nextLeg := r2.skipInitialFixes r2.activeLeg
    let pos1 := r2.getPositionAt (nextLeg - 1)
    let pos2 := r2.getPositionAt nextLeg
    let legCrs := normalizeCourse (g.angleDegTo pos1 pos2)
    let courseDiff0 := floatMod (pos.course - legCrs + 360) 360
    let courseDiff := if courseDiff0 > 180 then 360 - courseDiff0 else courseDiff0
    let nextLegResult := g.distanceMeterToLine pos.pos pos1 pos2
    if r2.decideSwitchToNextLeg g r2.activeLeg nextLeg nextLegResult courseDiff ∧
       ¬(r2.shownTypes &&& MAP_MISSED_APPROACH = 0 ∧ (r2.legAt nextLeg).procedureLeg.isMissed) then
      { r2 with activeLeg := nextLeg,
                activeLegResult := g.distanceMeterToLine pos.pos
                  (r2.getPositionAt (nextLeg - 1)) (r2.getPositionAt nextLeg) }
    else r2
  else r2

/-- Initialization-and-clamp of the active leg in `updateActiveLegAndPos`
(lines 155-163): take the nearest pair when no active leg is set, then pull
an index at or beyond the end back to size - 1. -/
def Route.ualpClamp (g : GeoPrims) (r : Route) (pos : PosCourse) : ℤ :=
  let active0 :=
    if r.activeLeg = INVALID_INDEX_VALUE then (r.nearestAllLegIndex g pos).2 else r.activeLeg
  if active0 ≥ r.size then r.size - 1 else active0

/-- `Route::updateActiveLegAndPos` — the active-leg tracker transition. -/
def Route.updateActiveLegAndPos (g : GeoPrims) (r : Route) (pos : PosCourse) : Route :=
  if r.legs.isEmpty || !pos.isValid then r.resetActive
  else
    let active1 := r.ualpClamp g pos
    if r.size = 1 then
      { r with activeLeg := 0, activePos := pos,
               activeLegResult := g.distanceMeterToLine pos.pos (r.getPositionAt 0)
                 (r.getPositionAt 0) }
    else
      let active2 := if active1 = 0 then 1 else active1
      let r2 :=
        { r with activeLeg := active2, activePos := pos,
                 activeLegResult := g.distanceMeterToLine pos.pos
                   (r.getPositionAt (active2 - 1)) (r.getPositionAt active2) }
      r2.ualpAdvance g pos

/-- `Route::setActiveLeg`. -/
def Route.setActiveLeg (g : GeoPrims) (r : Route) (value : ℤ) : Route :=
  let active := if value > 0 ∧ value < r.size then value else 1
  { r with activeLeg := active,
           activeLegResult := g.distanceMeterToLine r.activePos.pos
             ((r.legAt (active - 1)).position) ((r.legAt active).position) }

/-- `Route::getActiveLegIndexCorrected`, returning the index and the
`corrected` out-parameter (`none` = never written). -/
def Route.getActiveLegIndexCorrected (r : Route) : ℤ × Option Bool :=
  if r.activeLeg = INVALID_INDEX_VALUE then (INVALID_INDEX_VALUE, none)
  else
    let nextLeg := r.activeLeg + 1
    if nextLeg < r.size ∧ nextLeg = r.size ∧ (r.legAt nextLeg).isAnyProcedure then
      (r.activeLeg + 1, some true)
    else
      (r.activeLeg, some false)

/-! Concrete fixtures used by witnesses and counterexamples. -/

/-- A valid position at the given coordinates. -/
def mkPos (x y : ℚ) : Pos := { lonX := x, latY := y, altitude := 0, valid := true }

/-- A plain (non-procedure) route leg. -/
def mkLeg (p : Pos) (mt : ℕ) (d : ℚ) : RouteLeg :=
  { defaultRouteLeg with position := p, mapObjectType := mt, distanceTo := d }

/-- A route with the given legs and all other fields at their initial
values. -/
def mkRoute (legs : List RouteLeg) : Route :=
  { legs := legs, totalDistance := 0,
    boundingRect := { west := 0, north := 0, east := 0, south := 0 },
    trueCourse := false, shownTypes := 0,
    activeLeg := INVALID_INDEX_VALUE,
    activePos := { pos := EMPTY_POS, course := INVALID_COURSE_VALUE },
    activeLegResult := { status := LineStatus.INVALID, distance := INVALID_DISTANCE_VALUE,
                         distanceFrom1 := INVALID_DISTANCE_VALUE,
                         distanceFrom2 := INVALID_DISTANCE_VALUE },
    departureLegsOffset := INVALID_INDEX_VALUE, starLegsOffset := INVALID_INDEX_VALUE,
    arrivalLegsOffset := INVALID_INDEX_VALUE,
    departureLegsSize := 0, starLegsSize := 0, arrivalLegsSize := 0 }

/-- A simple geometry oracle: every line distance is on-track at distance 0,
plain endpoint interpolation. -/
def geo0 : GeoPrims :=
  { distanceMeterToLine := fun _ _ _ =>
      { status := LineStatus.ALONG_TRACK, distance := 0, distanceFrom1 := 0, distanceFrom2 := 0 },
    distanceMeterToLineString := fun _ _ =>
      { status := LineStatus.ALONG_TRACK, distance := 0, distanceFrom1 := 0, distanceFrom2 := 0 },
    angleDegTo := fun _ _ => 0,
    interpolate := fun p q fraction => if fraction = 0 then p else q,
    interpolateLineString := fun _ _ => EMPTY_POS,
    distanceMeterTo := fun _ _ => 0,
    boundingRectFromLineString := fun _ => { west := 0, north := 0, east := 0, south := 0 } }

/-- A geometry oracle that puts every point exactly 150 NM off every
segment. -/
def geo150 : GeoPrims :=
  { geo0 with distanceMeterToLine := fun _ _ _ =>
      { status := LineStatus.ALONG_TRACK, distance := nmToMeter 150,
        distanceFrom1 := 0, distanceFrom2 := 0 } }

/-- Two-leg route: departure airport then destination airport, 10 NM. -/
def routeTwo : Route :=
  { mkRoute [mkLeg (mkPos 0 0) MAP_AIRPORT 0, mkLeg (mkPos 1 0) MAP_AIRPORT 10] with
    totalDistance := 10 }

/-- Single-point route. -/
def routePoint : Route := mkRoute [mkLeg (mkPos 0 0) MAP_AIRPORT 0]

/-- A STAR procedure leg fixture. -/
def starLeg : RouteLeg :=
  { mkLeg (mkPos 3 0) MAP_WAYPOINT 5 with
    procedureLeg := { defaultRouteLeg.procedureLeg with mapType := PROCEDURE_STAR } }

/-- Five-leg route whose STAR block starts at index 3. -/
def routeStar : Route :=
  { mkRoute [mkLeg (mkPos 0 0) MAP_AIRPORT 0, mkLeg (mkPos 1 0) MAP_WAYPOINT 10,
             mkLeg (mkPos 2 0) MAP_WAYPOINT 10, starLeg, mkLeg (mkPos 4 0) MAP_AIRPORT 5] with
    starLegsOffset := 3, starLegsSize := 1, totalDistance := 30 }

/-- A holding-pattern procedure leg fixture. -/
def holdLeg : RouteLeg :=
  { mkLeg (mkPos 2 0) MAP_WAYPOINT 5 with
    procedureLeg := { defaultRouteLeg.procedureLeg with
                      type := ProcLegType.HOLD_TO_FIX, mapType := PROCEDURE_STAR } }

/-- Three-leg route ending in a holding pattern. -/
def routeHold : Route :=
  { mkRoute [mkLeg (mkPos 0 0) MAP_AIRPORT 0, mkLeg (mkPos 1 0) MAP_WAYPOINT 10, holdLeg] with
    totalDistance := 15 }

/-! Claim theorems. -/

/-- C10: `getActiveLegIndexCorrected` returns the sentinel when there is no
active leg and otherwise exactly `activeLeg` with `*corrected = false`; the
`activeLeg + 1` / `*corrected = true` branch is unreachable because its guard
requires `nextLeg < size()` and `nextLeg == size()` simultaneously. -/
theorem getActiveLegIndexCorrected_eq (r : Route) :
    r.getActiveLegIndexCorrected =
      if r.activeLeg = INVALID_INDEX_VALUE then (INVALID_INDEX_VALUE, (none : Option Bool))
      else (r.activeLeg, some false) := by
  unfold Route.getActiveLegIndexCorrected
  split
  · rfl
  · dsimp only
    split
    · rename_i h
      exact absurd h (by rintro ⟨h1, h2, -⟩; omega)
    · rfl

/-- C3 counterexample: on a route with a STAR block starting at offset 3,
the index equal to the STAR block start offset is editable —
`canEditLeg` uses strict comparisons — contradicting the claim that the
offset index itself is not user-editable. -/
theorem canEditLeg_at_star_offset :
    routeStar.hasAnyStarProcedure = true ∧ routeStar.starLegsOffset = 3 ∧
    routeStar.canEditLeg 3 = true := by decide

/-- C3 (amended): `canEditLeg i` is false exactly when a departure procedure
exists and i is below the end of the departure block (including indices
before its start), or a STAR exists and i is strictly greater than
`starLegsOffset`, or an arrival exists and i is strictly greater than
`arrivalLegsOffset`; otherwise it is true. The STAR / arrival block start
offsets themselves remain editable. -/
theorem canEditLeg_iff (r : Route) (index : ℤ) :
    r.canEditLeg index = true ↔
      ¬(r.departureLegsSize ≠ 0 ∧ index < r.departureLegsOffset + r.departureLegsSize) ∧
      ¬(r.starLegsSize ≠ 0 ∧ index > r.starLegsOffset) ∧
      ¬(r.arrivalLegsSize ≠ 0 ∧ index > r.arrivalLegsOffset) := by
  unfold Route.canEditLeg Route.hasAnyDepartureProcedure Route.hasAnyStarProcedure
    Route.hasAnyArrivalProcedure
  split_ifs with h1 h2 h3 <;> simp_all

/-- C4: `getRouteDistances` returns false exactly when there is no active
leg, and in that case none of the four output parameters is written; with an
active leg present it returns true. -/
theorem getRouteDistances_failure_contract (g : GeoPrims) (r : Route) :
    ((r.getRouteDistances g).1 = false ↔ r.activeLeg = INVALID_INDEX_VALUE) ∧
    (r.activeLeg = INVALID_INDEX_VALUE →
      r.getRouteDistances g = (false, none, none, none, none)) := by
  unfold Route.getRouteDistances
  split
  · rename_i h; simp [h]
  · rename_i h; simp [h]

/-- C4 witness: the contract evaluated on the fresh two-leg route, whose
active leg is still the sentinel. -/
theorem getRouteDistances_failure_contract_witness :
    ((routeTwo.getRouteDistances geo0).1 = false ↔
      routeTwo.activeLeg = INVALID_INDEX_VALUE) ∧
    (routeTwo.activeLeg = INVALID_INDEX_VALUE →
      routeTwo.getRouteDistances geo0 = (false, none, none, none, none)) :=
  getRouteDistances_failure_contract geo0 routeTwo

/-- C8: when the candidate next leg is a holding pattern and the active leg
is neither a hold nor a procedure turn, the switch decision is exactly
"absolute next-leg cross-track distance below 0.5 NM", with no condition on
course difference, along-track status, or the active-leg distance. -/
theorem decideSwitch_entering_hold (g : GeoPrims) (r : Route) (activeLegIdx nextLeg : ℤ)
    (nextLegResult : LineDistance) (courseDiff : ℚ)
    (hn : (r.legAt nextLeg).procedureLeg.isHold = true)
    (ha : (r.legAt activeLegIdx).procedureLeg.isHold = false)
    (hp : (r.legAt activeLegIdx).getProcedureLegType ≠ ProcLegType.PROCEDURE_TURN) :
    r.decideSwitchToNextLeg g activeLegIdx nextLeg nextLegResult courseDiff =
      decide (|nextLegResult.distance| < nmToMeter (1/2)) := by
  unfold Route.decideSwitchToNextLeg
  simp [ha, hn]

/-- C8 witness: entering the hold at the end of `routeHold` with a 100 m
next-leg distance switches (100 m < 0.5 NM). -/
theorem decideSwitch_entering_hold_witness :
    routeHold.decideSwitchToNextLeg geo0 1 2
        { status := LineStatus.ALONG_TRACK, distance := 100,
          distanceFrom1 := 0, distanceFrom2 := 0 } 0 =
      decide (|(100 : ℚ)| < nmToMeter (1/2)) :=
  decideSwitch_entering_hold geo0 routeHold 1 2
    { status := LineStatus.ALONG_TRACK, distance := 100, distanceFrom1 := 0, distanceFrom2 := 0 }
    0 (by decide) (by decide) (by decide)

/-- C9 counterexample: on a single-leg route, `setActiveLeg` always stores
index 1, which lies outside [1, size-1] = [1, 0]; the claimed clamp into
[1, size-1] fails there. -/
theorem setActiveLeg_point_route_out_of_range :
    (routePoint.setActiveLeg geo0 5).activeLeg = 1 ∧
    ¬((routePoint.setActiveLeg geo0 5).activeLeg ≤ routePoint.size - 1) := by
  decide

/-- C9 (amended): on routes with at least two legs, `setActiveLeg` stores
the given index when it lies in (0, size), otherwise 1 — hence always a
value in [1, size-1] — and immediately recomputes the active-leg
line-distance result against the segment (leg[active-1], leg[active]). -/
theorem setActiveLeg_spec (g : GeoPrims) (r : Route) (value : ℤ) (h : 2 ≤ r.size) :
    (1 ≤ (r.setActiveLeg g value).activeLeg ∧
      (r.setActiveLeg g value).activeLeg ≤ r.size - 1) ∧
    (r.setActiveLeg g value).activeLeg = (if value > 0 ∧ value < r.size then value else 1) ∧
    (r.setActiveLeg g value).activeLegResult =
      g.distanceMeterToLine r.activePos.pos
        (r.getPositionAt ((r.setActiveLeg g value).activeLeg - 1))
        (r.getPositionAt ((r.setActiveLeg g value).activeLeg)) := by
  unfold Route.setActiveLeg Route.getPositionAt
  dsimp only
  split_ifs with h1 <;>
    refine ⟨⟨?_, ?_⟩, ?_, ?_⟩ <;> first | omega | rfl

/-- C9 witness: `setActiveLeg 1` on the two-leg route lands on index 1 with
the recomputed line-distance result. -/
theorem setActiveLeg_spec_witness :
    (1 ≤ (routeTwo.setActiveLeg geo0 1).activeLeg ∧
      (routeTwo.setActiveLeg geo0 1).activeLeg ≤ routeTwo.size - 1) ∧
    (routeTwo.setActiveLeg geo0 1).activeLeg =
      (if (1 : ℤ) > 0 ∧ (1 : ℤ) < routeTwo.size then 1 else 1) ∧
    (routeTwo.setActiveLeg geo0 1).activeLegResult =
      geo0.distanceMeterToLine routeTwo.activePos.pos
        (routeTwo.getPositionAt ((routeTwo.setActiveLeg geo0 1).activeLeg - 1))
        (routeTwo.getPositionAt ((routeTwo.setActiveLeg geo0 1).activeLeg)) :=
  setActiveLeg_spec geo0 routeTwo 1 (by decide)

/-- With nonnegative leg distances and a request at least the full sum, the
strict comparison in `findLeg` never fires and the sentinel index comes
back. -/
lemma findLeg_none (d : ℚ) :
    ∀ (ls : List RouteLeg) (i : ℤ) (total : ℚ),
      total + (ls.map RouteLeg.distanceTo).sum ≤ d →
      (∀ leg ∈ ls, 0 ≤ leg.distanceTo) →
      (findLeg ls i total d).2 = INVALID_INDEX_VALUE := by
  intro ls
  induction ls with
  | nil => intro i total _ _; rfl
  | cons leg rest ih =>
    intro i total hle hnn
    have hsum : 0 ≤ (rest.map RouteLeg.distanceTo).sum := by
      apply List.sum_nonneg
      intro x hx
      obtain ⟨l, hl, rfl⟩ := List.mem_map.mp hx
      exact hnn l (List.mem_cons_of_mem _ hl)
    simp only [List.map_cons, List.sum_cons] at hle
    unfold findLeg
    dsimp only
    rw [if_neg (by linarith)]
    exact ih (i + 1) (total + leg.distanceTo) (by linarith)
      (fun l hl => hnn l (List.mem_cons_of_mem _ hl))

/-- C2 (amended): `positionAtDistance` rejects d outside [0, total] with the
empty position; at 0 it returns the first leg's position (given at least two
legs, a positive first-segment distance, plain segment geometry and an
interpolation primitive that is exact at fraction 0); but at exactly the
total distance it also returns the empty position — the strict cumulative
comparison never locates a containing leg at d = total — instead of the last
leg's position. -/
theorem positionAtDistance_spec (g : GeoPrims) (r : Route) :
    (∀ d : ℚ, d < 0 ∨ d > r.totalDistance → r.positionAtDistance g d = EMPTY_POS) ∧
    (0 ≤ r.totalDistance → 2 ≤ r.legs.length → 0 < (r.legAt 1).distanceTo →
      ¬((r.legAt 1).getGeometry.length > 2) →
      g.interpolate (r.getPositionAt 0) (r.getPositionAt 1) 0 = r.getPositionAt 0 →
      r.positionAtDistance g 0 = r.getPositionAt 0) ∧
    (r.totalDistance = ((r.legs.drop 1).map RouteLeg.distanceTo).sum →
      (∀ leg ∈ r.legs, 0 ≤ leg.distanceTo) →
      (r.legs.length : ℤ) ≤ INVALID_INDEX_VALUE →
      r.positionAtDistance g r.totalDistance = EMPTY_POS) := by
  refine ⟨?_, ?_, ?_⟩
  · intro d hd
    unfold Route.positionAtDistance
    rw [if_pos hd]
  · intro h0 hlen hd1 hg hint
    unfold Route.positionAtDistance
    rw [if_neg (by push_neg; exact ⟨le_refl 0, h0⟩)]
    have h1lt : 1 < r.legs.length := by omega
    have hdrop : r.legs.drop 1 = r.legAt 1 :: r.legs.drop 2 := by
      rw [List.drop_eq_getElem_cons h1lt]
      congr 1
      unfold Route.legAt
      exact (List.getD_eq_getElem r.legs defaultRouteLeg (by simpa using h1lt)).symm
    rw [hdrop]
    have hfind : findLeg (r.legAt 1 :: r.legs.drop 2) 0 0 0 =
        (0 + (r.legAt 1).distanceTo, 0) := by
      unfold findLeg
      dsimp only
      rw [if_pos (by simpa using hd1)]
    rw [hfind]
    dsimp only
    rw [if_pos (show (0 : ℤ) < r.size - 1 by unfold Route.size; omega)]
    simp only [zero_add]
    rw [if_neg hg]
    have hfr : (0 : ℚ) - ((r.legAt 1).distanceTo - (r.legAt 1).distanceTo) = 0 := by ring
    rw [hfr, zero_div]
    rw [show (1 : ℤ) - 1 = 0 from rfl]
    exact hint
  · intro htot hnn hbound
    unfold Route.positionAtDistance
    have h0 : 0 ≤ r.totalDistance := by
      rw [htot]
      apply List.sum_nonneg
      intro x hx
      obtain ⟨l, hl, rfl⟩ := List.mem_map.mp hx
      exact hnn l (List.mem_of_mem_drop hl)
    rw [if_neg (by push_neg; exact ⟨h0, le_refl _⟩)]
    have hres : (findLeg (r.legs.drop 1) 0 0 r.totalDistance).2 = INVALID_INDEX_VALUE := by
      apply findLeg_none
      · rw [htot]; simp
      · intro l hl; exact hnn l (List.mem_of_mem_drop hl)
    dsimp only
    rw [hres, if_neg (by unfold Route.size; unfold INVALID_INDEX_VALUE at hbound ⊢; omega)]

/-- C2 counterexample: at exactly the total distance (10 NM of the two-leg
route) the empty position comes back, while the last leg's position is a
valid position — no interpolation tolerance reconciles an invalid position
with a valid one. -/
theorem positionAtDistance_total_empty :
    (routeTwo.positionAtDistance geo0 routeTwo.totalDistance).valid = false ∧
    (routeTwo.getPositionAt (routeTwo.size - 1)).valid = true ∧
    routeTwo.positionAtDistance geo0 routeTwo.totalDistance ≠
      routeTwo.getPositionAt (routeTwo.size - 1) := by
  have h1 : (routeTwo.positionAtDistance geo0 routeTwo.totalDistance).valid = false := by
    with_unfolding_all rfl
  have h2 : (routeTwo.getPositionAt (routeTwo.size - 1)).valid = true := rfl
  refine ⟨h1, h2, fun h => ?_⟩
  rw [h, h2] at h1
  exact Bool.noConfusion h1

/-- C2 witness: the amended claim evaluated on the concrete two-leg route. -/
theorem positionAtDistance_spec_witness :
    routeTwo.positionAtDistance geo0 (-1) = EMPTY_POS ∧
    routeTwo.positionAtDistance geo0 0 = routeTwo.getPositionAt 0 ∧
    routeTwo.positionAtDistance geo0 routeTwo.totalDistance = EMPTY_POS :=
  ⟨(positionAtDistance_spec geo0 routeTwo).1 (-1) (Or.inl (by norm_num)),
   (positionAtDistance_spec geo0 routeTwo).2.1 (by with_unfolding_all decide) (by decide)
     (by with_unfolding_all decide) (by decide) (by with_unfolding_all decide),
   (positionAtDistance_spec geo0 routeTwo).2.2 (by with_unfolding_all decide)
     (by with_unfolding_all decide) (by decide)⟩

/-- The summation loop of `getDistanceFromStart` computes the prefix sum
over legs [i, leg) up to the first missed leg. -/
lemma gdfsLoop_eq (r : Route) (leg : ℤ) :
    ∀ (fuel : ℕ) (i : ℤ) (acc : ℚ),
      1 ≤ i → i ≤ leg → leg ≤ (r.legs.length : ℤ) → (leg - i).toNat ≤ fuel →
      gdfsLoop r leg fuel i acc =
        acc + ((((r.legs.take leg.toNat).drop i.toNat).takeWhile
          (fun l => !l.procedureLeg.isMissed)).map (fun l => nmToMeter l.distanceTo)).sum := by
  intro fuel
  induction fuel with
  | zero =>
    intro i acc h1 h2 h3 h4
    have hieq : i = leg := by omega
    subst hieq
    have hdrop : (r.legs.take i.toNat).drop i.toNat = [] := by
      apply List.drop_eq_nil_of_le
      simp [List.length_take]
    rw [hdrop]
    simp [gdfsLoop]
  | succ fuel ih =>
    intro i acc h1 h2 h3 h4
    unfold gdfsLoop
    by_cases hi : i < leg
    · rw [if_pos hi]
      have hlt : i.toNat < (r.legs.take leg.toNat).length := by
        simp [List.length_take]; omega
      have hslice : (r.legs.take leg.toNat).drop i.toNat =
          r.legAt i :: (r.legs.take leg.toNat).drop (i.toNat + 1) := by
        rw [List.drop_eq_getElem_cons hlt]
        congr 1
        rw [List.getElem_take]
        unfold Route.legAt
        exact (List.getD_eq_getElem _ _ (by simp [List.length_take] at hlt; omega)).symm
      rw [hslice]
      by_cases hm : (r.legAt i).procedureLeg.isMissed = true
      · rw [if_neg (by simp [hm])]
        simp [List.takeWhile_cons, hm]
      · rw [if_pos (by simp at hm; simp [hm])]
        rw [ih (i + 1) (acc + nmToMeter (r.legAt i).distanceTo) (by omega) (by omega) h3
          (by omega)]
        have ht : (i + 1).toNat = i.toNat + 1 := by omega
        rw [ht]
        simp only [List.takeWhile_cons]
        simp [hm]
        ring
    · rw [if_neg hi]
      have hieq : i = leg := by omega
      subst hieq
      have hdrop : (r.legs.take i.toNat).drop i.toNat = [] := by
        apply List.drop_eq_nil_of_le
        simp [List.length_take]
      rw [hdrop]
      simp

/-- Spec-side sum for `getDistanceFromStart`: the distances of legs
1..leg-1 up to the first missed leg, converted to meters. -/
def gdfsSumSpec (r : Route) (leg : ℤ) : ℚ :=
  ((((r.legs.take leg.toNat).drop 1).takeWhile (fun l => !l.procedureLeg.isMissed)).map
    (fun l => nmToMeter l.distanceTo)).sum

/-- C5 (amended): `getDistanceFromStart` locates the nearest segment with
the editability filter disabled (the locator runs with
ignoreNotEditable = false, so non-editable segments participate), sums the
distances of legs 1..leg-1 — stopping at the first missed leg — plus the
along-track offset into the found segment; and when the nearest result is
not along-track it returns `meterToNm` of the invalid-distance sentinel,
i.e. the sentinel divided by 1852, which differs from the sentinel
itself. -/
theorem getDistanceFromStart_spec (g : GeoPrims) (r : Route) (pos : Pos) :
    (¬((r.getNearestRouteLegResult g pos false).1 < INVALID_INDEX_VALUE ∧
        (r.getNearestRouteLegResult g pos false).2.status = LineStatus.ALONG_TRACK) →
      r.getDistanceFromStart g pos = meterToNm INVALID_DISTANCE_VALUE) ∧
    meterToNm INVALID_DISTANCE_VALUE ≠ INVALID_DISTANCE_VALUE ∧
    (∀ leg result, r.getNearestRouteLegResult g pos false = (leg, result) →
      leg < INVALID_INDEX_VALUE → result.status = LineStatus.ALONG_TRACK →
      1 ≤ leg → leg ≤ (r.legs.length : ℤ) →
      r.getDistanceFromStart g pos =
        meterToNm (max (|gdfsSumSpec r leg + result.distanceFrom1|) 0)) := by
  refine ⟨?_, ?_, ?_⟩
  · intro h
    unfold Route.getDistanceFromStart
    dsimp only
    rw [if_neg h]
  · unfold meterToNm INVALID_DISTANCE_VALUE
    norm_num
  · intro leg result heq h1 h2 h3 h4
    unfold Route.getDistanceFromStart
    rw [heq]
    dsimp only
    rw [if_pos ⟨h1, h2⟩]
    rw [gdfsLoop_eq r leg r.legs.length 1 0 (le_refl 1) h3 h4 (by omega)]
    rw [zero_add]
    rfl

/-- C5 counterexample: on the single-point route the locator finds no
segment (the result stays status INVALID, not along-track), and
`getDistanceFromStart` returns the sentinel divided by 1852 — not the
"invalid distance" sentinel the claim promises. -/
theorem getDistanceFromStart_not_sentinel :
    (routePoint.getNearestRouteLegResult geo0 (mkPos 0 0) false).2.status ≠
      LineStatus.ALONG_TRACK ∧
    routePoint.getDistanceFromStart geo0 (mkPos 0 0) ≠ INVALID_DISTANCE_VALUE ∧
    routePoint.getDistanceFromStart geo0 (mkPos 0 0) = INVALID_DISTANCE_VALUE / 1852 := by
  have hst : routePoint.getNearestRouteLegResult geo0 (mkPos 0 0) false =
      (INVALID_INDEX_VALUE, nrlrInit) := by decide
  have hval : routePoint.getDistanceFromStart geo0 (mkPos 0 0) =
      INVALID_DISTANCE_VALUE / 1852 := by
    unfold Route.getDistanceFromStart
    rw [hst]
    dsimp only
    rw [if_neg (fun hc => absurd hc.1 (lt_irrefl _))]
    rfl
  refine ⟨by rw [hst]; decide, ?_, hval⟩
  rw [hval]
  unfold INVALID_DISTANCE_VALUE
  norm_num

/-- C5 witness: on the two-leg route with the trivial oracle the nearest
segment is leg 1, along-track, and the returned value is the amended
formula's value. -/
theorem getDistanceFromStart_spec_witness :
    routeTwo.getDistanceFromStart geo0 (mkPos 0 0) =
      meterToNm (max (|gdfsSumSpec routeTwo 1 +
        ({ status := LineStatus.ALONG_TRACK, distance := 0, distanceFrom1 := 0,
           distanceFrom2 := 0 } : LineDistance).distanceFrom1|) 0) :=
  (getDistanceFromStart_spec geo0 routeTwo (mkPos 0 0)).2.2 1
    { status := LineStatus.ALONG_TRACK, distance := 0, distanceFrom1 := 0, distanceFrom2 := 0 }
    (by with_unfolding_all decide) (by decide) (by decide) (by decide) (by decide)

/-- The per-leg distance/course refresh leaves the procedure descriptor
untouched. -/
lemma updateDistanceAndCourse_procedureLeg (g : GeoPrims) (leg : RouteLeg)
    (last : Option RouteLeg) :
    (leg.updateDistanceAndCourse g last).procedureLeg = leg.procedureLeg := by
  cases last <;> rfl

/-- The per-leg distance/course refresh leaves the map-object type
untouched. -/
lemma updateDistanceAndCourse_mapObjectType (g : GeoPrims) (leg : RouteLeg)
    (last : Option RouteLeg) :
    (leg.updateDistanceAndCourse g last).mapObjectType = leg.mapObjectType := by
  cases last <;> rfl

/-- Two leg lists with the same map-object types agree on every defaulted
lookup's map-object type. -/
lemma getD_mapObjectType_eq :
    ∀ {l1 l2 : List RouteLeg},
      l1.map (fun l => l.mapObjectType) = l2.map (fun l => l.mapObjectType) →
      ∀ n : ℕ, (l1.getD n defaultRouteLeg).mapObjectType =
        (l2.getD n defaultRouteLeg).mapObjectType := by
  intro l1
  induction l1 with
  | nil =>
    intro l2 h n
    have h2 : l2 = [] := by simpa using h.symm
    subst h2; rfl
  | cons a t ih =>
    intro l2 h n
    cases l2 with
    | nil => simp at h
    | cons b u =>
      simp only [List.map_cons, List.cons.injEq] at h
      cases n with
      | zero => simpa using h.1
      | succ m => simpa using ih h.2 m

/-- Invariant of the `updateDistancesAndCourse` loop started at index i with
i + (remaining legs) = size: the accumulated total is the sum of non-missed
output-leg distances, stopping before the trailing airport-after-arrival
leg; length and map-object types are preserved. -/
lemma updateDCLoop_spec (g : GeoPrims) (r : Route) :
    ∀ (ls : List RouteLeg) (i : ℤ), 0 ≤ i → i + ls.length = r.size →
      ∀ (last : Option RouteLeg),
      (updateDCLoop g r i last ls).1.length = ls.length ∧
      (updateDCLoop g r i last ls).1.map (fun l => l.mapObjectType) =
        ls.map (fun l => l.mapObjectType) ∧
      (updateDCLoop g r i last ls).2 =
        ((((updateDCLoop g r i last ls).1.take
            (if r.isAirportAfterArrival (r.size - 1) = true then ls.length - 1
             else ls.length)).filter
          (fun l => !l.procedureLeg.isMissed)).map RouteLeg.distanceTo).sum := by
  intro ls
  induction ls with
  | nil =>
    intro i h0 hlen last
    refine ⟨rfl, rfl, ?_⟩
    simp [updateDCLoop]
  | cons leg rest ih =>
    intro i h0 hlen last
    unfold updateDCLoop
    by_cases hb : r.isAirportAfterArrival i = true
    · rw [if_pos hb]
      have hb' := hb
      unfold Route.isAirportAfterArrival at hb'
      simp only [Bool.and_eq_true, decide_eq_true_eq] at hb'
      have hi : i = r.size - 1 := hb'.1.2
      have hrest : rest = [] := by
        have hl : (rest.length : ℤ) = 0 := by
          simp only [List.length_cons] at hlen
          push_cast at hlen
          omega
        have : rest.length = 0 := by exact_mod_cast hl
        exact List.length_eq_zero.mp this
      subst hrest
      have hB : r.isAirportAfterArrival (r.size - 1) = true := by rw [← hi]; exact hb
      refine ⟨rfl, rfl, ?_⟩
      rw [if_pos hB]
      simp
    · rw [if_neg hb]
      dsimp only
      obtain ⟨ihlen, ihmap, ihsum⟩ := ih (i + 1) (by omega)
        (by simp only [List.length_cons] at hlen; push_cast at hlen ⊢; omega)
        (some (leg.updateDistanceAndCourse g last))
      refine ⟨by simp [ihlen], ?_, ?_⟩
      · simp only [List.map_cons, ihmap, updateDistanceAndCourse_mapObjectType]
      · by_cases hB : r.isAirportAfterArrival (r.size - 1) = true
        · have hrestne : rest ≠ [] := by
            intro hre
            apply hb
            subst hre
            have hi : i = r.size - 1 := by
              simp only [List.length_cons, List.length_nil] at hlen
              push_cast at hlen
              omega
            rw [hi]
            exact hB
          have hlen1 : 1 ≤ rest.length := List.length_pos.mpr hrestne
          rw [if_pos hB]
          rw [if_pos hB] at ihsum
          have hcut : rest.length + 1 - 1 = (rest.length - 1) + 1 := by omega
          simp only [List.length_cons, hcut]
          rw [List.take_succ_cons]
          by_cases hm : (leg.updateDistanceAndCourse g last).procedureLeg.isMissed = true
          · simp only [hm, if_true]
            rw [List.filter_cons_of_neg (by simp [hm])]
            rw [zero_add]
            exact ihsum
          · simp only [Bool.not_eq_true] at hm
            simp only [hm, Bool.false_eq_true, if_false]
            rw [List.filter_cons_of_pos (by simp [hm])]
            simp only [List.map_cons, List.sum_cons]
            rw [ihsum]
        · rw [if_neg hB]
          rw [if_neg hB] at ihsum
          simp only [List.length_cons]
          rw [List.take_succ_cons]
          rw [List.take_of_length_le (le_of_eq ihlen)]
          rw [List.take_of_length_le (le_of_eq ihlen)] at ihsum
          by_cases hm : (leg.updateDistanceAndCourse g last).procedureLeg.isMissed = true
          · simp only [hm, if_true]
            rw [List.filter_cons_of_neg (by simp [hm])]
            rw [zero_add]
            exact ihsum
          · simp only [Bool.not_eq_true] at hm
            simp only [hm, Bool.false_eq_true, if_false]
            rw [List.filter_cons_of_pos (by simp [hm])]
            simp only [List.map_cons, List.sum_cons]
            rw [ihsum]

/-- Spec-side total distance: the sum of per-leg distances over non-missed
legs, stopping before a trailing airport-after-arrival leg. -/
def routeDistanceSpec (r : Route) : ℚ :=
  (((r.legs.take (if r.isAirportAfterArrival (r.size - 1) = true then r.legs.length - 1
                  else r.legs.length)).filter
      (fun l => !l.procedureLeg.isMissed)).map RouteLeg.distanceTo).sum

/-- C7: after `updateDistancesAndCourse` the stored total equals the sum of
each leg's distance-to-predecessor over all legs excluding missed-approach
legs, the accumulation stopping before a trailing airport leg exactly when
an arrival procedure exists, that leg is last, and its map-object type is
airport. -/
theorem updateDistancesAndCourse_total (g : GeoPrims) (r : Route) :
    (r.updateDistancesAndCourse g).totalDistance =
      routeDistanceSpec (r.updateDistancesAndCourse g) := by
  obtain ⟨hlen, hmap, hsum⟩ := updateDCLoop_spec g r r.legs 0 le_rfl
    (by simp [Route.size]) none
  have hcond : (r.updateDistancesAndCourse g).isAirportAfterArrival
      ((r.updateDistancesAndCourse g).size - 1) = r.isAirportAfterArrival (r.size - 1) := by
    unfold Route.updateDistancesAndCourse Route.isAirportAfterArrival
      Route.hasAnyArrivalProcedure Route.size Route.legAt
    dsimp only
    rw [hlen]
    rw [getD_mapObjectType_eq hmap (((r.legs.length : ℤ) - 1).toNat)]
  have hlegs : (r.updateDistancesAndCourse g).legs = (updateDCLoop g r 0 none r.legs).1 := rfl
  have htot : (r.updateDistancesAndCourse g).totalDistance =
      (updateDCLoop g r 0 none r.legs).2 := rfl
  unfold routeDistanceSpec
  rw [hcond, hlegs, htot, hlen]
  exact hsum

/-- Invariant of the `nearestAllLegIndex` scan loop: the running state
(minDistance, crossTrack, index) is either still the sentinel triple or
records a genuine non-INVALID pair result, and the running minimum bounds
every scanned non-INVALID pair distance. -/
lemma nearestLoop_invariant (g : GeoPrims) (r : Route) (p : Pos) :
    ∀ (fuel : ℕ) (i : ℤ) (st : ℚ × ℚ × ℤ),
      1 ≤ i → r.size ≤ i + fuel →
      ((st.2.2 = INVALID_INDEX_VALUE ∧ st.2.1 = INVALID_DISTANCE_VALUE ∧
          st.1 = INVALID_DISTANCE_VALUE) ∨
        (1 ≤ st.2.2 ∧ st.2.2 < i ∧ st.2.2 < r.size ∧
          (r.legLineDist g p st.2.2).status ≠ LineStatus.INVALID ∧
          st.2.1 = (r.legLineDist g p st.2.2).distance ∧ st.1 = |st.2.1| ∧
          st.1 < INVALID_DISTANCE_VALUE)) →
      (∀ j : ℤ, 1 ≤ j → j < i → (r.legLineDist g p j).status ≠ LineStatus.INVALID →
        st.1 ≤ |(r.legLineDist g p j).distance|) →
      (((nearestLoop g r p fuel i st).2.2 = INVALID_INDEX_VALUE ∧
          (nearestLoop g r p fuel i st).2.1 = INVALID_DISTANCE_VALUE ∧
          (nearestLoop g r p fuel i st).1 = INVALID_DISTANCE_VALUE) ∨
        (1 ≤ (nearestLoop g r p fuel i st).2.2 ∧
          (nearestLoop g r p fuel i st).2.2 < r.size ∧
          (r.legLineDist g p (nearestLoop g r p fuel i st).2.2).status ≠ LineStatus.INVALID ∧
          (nearestLoop g r p fuel i st).2.1 =
            (r.legLineDist g p (nearestLoop g r p fuel i st).2.2).distance ∧
          (nearestLoop g r p fuel i st).1 = |(nearestLoop g r p fuel i st).2.1| ∧
          (nearestLoop g r p fuel i st).1 < INVALID_DISTANCE_VALUE)) ∧
      (∀ j : ℤ, 1 ≤ j → j < r.size → (r.legLineDist g p j).status ≠ LineStatus.INVALID →
        (nearestLoop g r p fuel i st).1 ≤ |(r.legLineDist g p j).distance|) := by
  intro fuel
  induction fuel with
  | zero =>
    intro i st h1 hfu hinv hmin
    unfold nearestLoop
    constructor
    · rcases hinv with h | h
      · exact Or.inl h
      · exact Or.inr ⟨h.1, h.2.2.1, h.2.2.2.1, h.2.2.2.2.1, h.2.2.2.2.2.1, h.2.2.2.2.2.2⟩
    · intro j hj1 hj2 hjst
      exact hmin j hj1 (by omega) hjst
  | succ fuel ih =>
    intro i st h1 hfu hinv hmin
    unfold nearestLoop
    by_cases hi : i < r.size
    · rw [if_pos hi]
      dsimp only
      by_cases hsel : (r.legLineDist g p i).status ≠ LineStatus.INVALID ∧
          |(r.legLineDist g p i).distance| < st.1
      · rw [if_pos hsel]
        apply ih (i + 1)
        · omega
        · omega
        · right
          refine ⟨h1, by show i < i + 1; omega, hi, hsel.1, rfl, rfl, ?_⟩
          rcases hinv with h | h
          · rw [h.2.2] at hsel
            exact hsel.2
          · exact lt_trans hsel.2 h.2.2.2.2.2.2
        · intro j hj1 hj2 hjst
          by_cases hji : j < i
          · exact le_trans (le_of_lt hsel.2) (hmin j hj1 hji hjst)
          · have hj : j = i := by omega
            subst hj
            exact le_refl _
      · rw [if_neg hsel]
        push_neg at hsel
        apply ih (i + 1) st (by omega) (by omega)
        · rcases hinv with h | h
          · exact Or.inl h
          · exact Or.inr ⟨h.1, by omega, h.2.2.1, h.2.2.2.1, h.2.2.2.2.1, h.2.2.2.2.2.1,
              h.2.2.2.2.2.2⟩
        · intro j hj1 hj2 hjst
          by_cases hji : j < i
          · exact hmin j hj1 hji hjst
          · have hj : j = i := by omega
            subst hj
            exact hsel hjst
    · rw [if_neg hi]
      constructor
      · rcases hinv with h | h
        · exact Or.inl h
        · exact Or.inr ⟨h.1, h.2.2.1, h.2.2.2.1, h.2.2.2.2.1, h.2.2.2.2.2.1, h.2.2.2.2.2.2⟩
      · intro j hj1 hj2 hjst
        exact hmin j hj1 (by omega) hjst

/-- The scan's returned index is the sentinel or a valid pair index. -/
lemma nearestAllLegIndex_index_range (g : GeoPrims) (r : Route) (pos : PosCourse) :
    (r.nearestAllLegIndex g pos).2 = INVALID_INDEX_VALUE ∨
      (1 ≤ (r.nearestAllLegIndex g pos).2 ∧ (r.nearestAllLegIndex g pos).2 < r.size) := by
  unfold Route.nearestAllLegIndex
  split
  · left; rfl
  · dsimp only
    have hI := (nearestLoop_invariant g r pos.pos r.legs.length 1
      (INVALID_DISTANCE_VALUE, INVALID_DISTANCE_VALUE, INVALID_INDEX_VALUE) le_rfl
      (by unfold Route.size; omega) (Or.inl ⟨rfl, rfl, rfl⟩)
      (by intro j hj1 hj2 _; omega)).1
    split
    · split
      · left; rfl
      · rcases hI with h | h
        · left; exact h.1
        · right; exact ⟨h.1, h.2.1⟩
    · rcases hI with h | h
      · left; exact h.1
      · right; exact ⟨h.1, h.2.1⟩

/-- C6: the nearest-leg scan keeps the pair of minimum absolute cross-track
distance among results not classified INVALID; whenever every such result
lies more than 100 NM away — in particular for a point 150 NM from every
segment — both returned values are sentinels; and a non-sentinel return
carries a minimal non-INVALID pair distance within 100 NM. -/
theorem nearestAllLegIndex_spec (g : GeoPrims) (r : Route) (pos : PosCourse)
    (hv : pos.isValid = true) :
    ((∀ j : ℤ, 1 ≤ j → j < r.size →
        (r.legLineDist g pos.pos j).status ≠ LineStatus.INVALID →
        nmToMeter 100 < |(r.legLineDist g pos.pos j).distance|) →
      r.nearestAllLegIndex g pos = (INVALID_DISTANCE_VALUE, INVALID_INDEX_VALUE)) ∧
    ((r.nearestAllLegIndex g pos).2 ≠ INVALID_INDEX_VALUE →
      1 ≤ (r.nearestAllLegIndex g pos).2 ∧ (r.nearestAllLegIndex g pos).2 < r.size ∧
      (r.legLineDist g pos.pos (r.nearestAllLegIndex g pos).2).status ≠ LineStatus.INVALID ∧
      (r.nearestAllLegIndex g pos).1 =
        (r.legLineDist g pos.pos (r.nearestAllLegIndex g pos).2).distance ∧
      |(r.nearestAllLegIndex g pos).1| ≤ nmToMeter 100 ∧
      (∀ j : ℤ, 1 ≤ j → j < r.size →
        (r.legLineDist g pos.pos j).status ≠ LineStatus.INVALID →
        |(r.nearestAllLegIndex g pos).1| ≤ |(r.legLineDist g pos.pos j).distance|)) := by
  obtain ⟨hI, hM⟩ := nearestLoop_invariant g r pos.pos r.legs.length 1
    (INVALID_DISTANCE_VALUE, INVALID_DISTANCE_VALUE, INVALID_INDEX_VALUE) le_rfl
    (by unfold Route.size; omega) (Or.inl ⟨rfl, rfl, rfl⟩)
    (by intro j hj1 hj2 _; omega)
  unfold Route.nearestAllLegIndex
  rw [if_neg (by simp [hv])]
  dsimp only
  set st := nearestLoop g r pos.pos r.legs.length 1
    (INVALID_DISTANCE_VALUE, INVALID_DISTANCE_VALUE, INVALID_INDEX_VALUE) with hstdef
  constructor
  · intro hfar
    rcases hI with h | h
    · rw [if_neg (by rw [h.2.1]; exact lt_irrefl _), h.2.1, h.1]
    · have hct : st.2.1 < INVALID_DISTANCE_VALUE :=
        lt_of_le_of_lt (le_trans (le_abs_self _) (le_of_eq h.2.2.2.2.1.symm)) h.2.2.2.2.2
      have hgt : |st.2.1| > nmToMeter 100 := by
        rw [h.2.2.2.1]
        exact hfar _ h.1 h.2.1 h.2.2.1
      rw [if_pos hct, if_pos hgt]
  · intro hne
    by_cases hct : st.2.1 < INVALID_DISTANCE_VALUE
    · by_cases hgt : |st.2.1| > nmToMeter 100
      · rw [if_pos hct, if_pos hgt] at hne
        exact absurd rfl hne
      · rw [if_pos hct, if_neg hgt] at hne ⊢
        rcases hI with h | h
        · exact absurd h.1 hne
        · refine ⟨h.1, h.2.1, h.2.2.1, h.2.2.2.1, not_lt.mp hgt, ?_⟩
          intro j hj1 hj2 hjst
          calc |(st.2.1, st.2.2).1| = st.1 := h.2.2.2.2.1.symm
          _ ≤ _ := hM j hj1 hj2 hjst
    · rw [if_neg hct] at hne ⊢
      rcases hI with h | h
      · exact absurd h.1 hne
      · exact absurd (lt_of_le_of_lt (le_trans (le_abs_self _)
          (le_of_eq h.2.2.2.2.1.symm)) h.2.2.2.2.2) hct

/-- C6 witness: a sample 150 NM from every segment of the two-leg route
yields the sentinel distance and the sentinel index. -/
theorem nearestAllLegIndex_spec_witness :
    routeTwo.nearestAllLegIndex geo150 { pos := mkPos 5 5, course := 0 } =
      (INVALID_DISTANCE_VALUE, INVALID_INDEX_VALUE) :=
  (nearestAllLegIndex_spec geo150 routeTwo { pos := mkPos 5 5, course := 0 } (by decide)).1
    (by
      intro j h1 h2 _
      have hsz : routeTwo.size = 2 := rfl
      rw [hsz] at h2
      have hj : j = 1 := by omega
      subst hj
      with_unfolding_all decide)

/-- The skip loop never moves the candidate backwards. -/
lemma skipLoopSamePos_ge (r : Route) : ∀ (fuel : ℕ) (n : ℤ), n ≤ r.skipLoopSamePos fuel n := by
  intro fuel
  induction fuel with
  | zero => intro n; exact le_refl n
  | succ fuel ih =>
    intro n
    unfold Route.skipLoopSamePos
    split
    · exact le_trans (by omega) (ih (n + 1))
    · exact le_refl n

/-- The skip loop halts at most two legs before the end. -/
lemma skipLoopSamePos_le (r : Route) :
    ∀ (fuel : ℕ) (n : ℤ), r.skipLoopSamePos fuel n ≤ max n (r.size - 2) := by
  intro fuel
  induction fuel with
  | zero => intro n; exact le_max_left n _
  | succ fuel ih =>
    intro n
    unfold Route.skipLoopSamePos
    split
    · rename_i h
      refine le_trans (ih (n + 1)) (max_le (by omega) (le_max_right _ _))
    · exact le_max_left n _

/-- The hold-variant skip loop never moves the candidate backwards. -/
lemma skipLoopHold_ge (r : Route) : ∀ (fuel : ℕ) (n : ℤ), n ≤ r.skipLoopHold fuel n := by
  intro fuel
  induction fuel with
  | zero => intro n; exact le_refl n
  | succ fuel ih =>
    intro n
    unfold Route.skipLoopHold
    split
    · exact le_trans (by omega) (ih (n + 1))
    · exact le_refl n

/-- The hold-variant skip loop halts at most two legs before the end. -/
lemma skipLoopHold_le (r : Route) :
    ∀ (fuel : ℕ) (n : ℤ), r.skipLoopHold fuel n ≤ max n (r.size - 2) := by
  intro fuel
  induction fuel with
  | zero => intro n; exact le_max_left n _
  | succ fuel ih =>
    intro n
    unfold Route.skipLoopHold
    split
    · rename_i h
      refine le_trans (ih (n + 1)) (max_le (by omega) (le_max_right _ _))
    · exact le_max_left n _

/-- Bounds on the selected candidate: at least activeLeg + 1 and below the
sequence end whenever activeLeg + 1 is. -/
lemma skipInitialFixes_bounds (r : Route) (a : ℤ) :
    a + 1 ≤ r.skipInitialFixes a ∧
    r.skipInitialFixes a ≤ max (a + 1) (r.size - 2) := by
  unfold Route.skipInitialFixes
  split
  · exact ⟨skipLoopSamePos_ge r r.legs.length (a + 1), skipLoopSamePos_le r r.legs.length (a + 1)⟩
  · exact ⟨skipLoopHold_ge r r.legs.length (a + 1), skipLoopHold_le r r.legs.length (a + 1)⟩

/-- The advance phase leaves the leg list untouched. -/
lemma ualpAdvance_legs (g : GeoPrims) (r2 : Route) (pos : PosCourse) :
    (r2.ualpAdvance g pos).legs = r2.legs := by
  unfold Route.ualpAdvance
  split
  · dsimp only
    split <;> split <;> rfl
  · rfl

/-- The advance phase keeps the active leg inside [1, size-1]. -/
lemma ualpAdvance_activeLeg_range (g : GeoPrims) (r2 : Route) (pos : PosCourse)
    (h1 : 1 ≤ r2.activeLeg) (h2 : r2.activeLeg ≤ r2.size - 1) :
    1 ≤ (r2.ualpAdvance g pos).activeLeg ∧ (r2.ualpAdvance g pos).activeLeg ≤ r2.size - 1 := by
  obtain ⟨hg, hl⟩ := skipInitialFixes_bounds r2 r2.activeLeg
  unfold Route.ualpAdvance
  split
  · rename_i hc
    dsimp only
    split
    · split
      · refine ⟨?_, ?_⟩
        · show (1 : ℤ) ≤ r2.skipInitialFixes r2.activeLeg
          omega
        · show r2.skipInitialFixes r2.activeLeg ≤ r2.size - 1
          exact le_trans hl (max_le (by omega) (by omega))
      · exact ⟨h1, h2⟩
    · split
      · refine ⟨?_, ?_⟩
        · show (1 : ℤ) ≤ r2.skipInitialFixes r2.activeLeg
          omega
        · show r2.skipInitialFixes r2.activeLeg ≤ r2.size - 1
          exact le_trans hl (max_le (by omega) (by omega))
      · exact ⟨h1, h2⟩
  · exact ⟨h1, h2⟩

/-- The clamp stage yields an index in [0, size-1] whenever the stored
index is in range or at least the sentinel, the route is non-empty, and the
size respects the machine bound. -/
lemma ualpClamp_range (g : GeoPrims) (r : Route) (pos : PosCourse)
    (hne : r.legs ≠ []) (hsz : r.size ≤ INVALID_INDEX_VALUE)
    (ha : (0 ≤ r.activeLeg ∧ r.activeLeg ≤ r.size - 1) ∨
      INVALID_INDEX_VALUE ≤ r.activeLeg) :
    0 ≤ r.ualpClamp g pos ∧ r.ualpClamp g pos ≤ r.size - 1 := by
  have hsz1 : 1 ≤ r.size := by
    unfold Route.size
    have := List.length_pos.mpr hne
    omega
  unfold Route.ualpClamp
  dsimp only
  by_cases hinv : r.activeLeg = INVALID_INDEX_VALUE
  · rw [if_pos hinv]
    rcases nearestAllLegIndex_index_range g r pos with hn | hn
    · rw [if_pos (by omega)]
      omega
    · rw [if_neg (by omega)]
      omega
  · rw [if_neg hinv]
    rcases ha with h | h
    · rw [if_neg (by omega)]
      omega
    · rw [if_pos (by omega)]
      omega

/-- The tracker transition leaves the leg list untouched. -/
lemma updateActiveLegAndPos_legs (g : GeoPrims) (r : Route) (pos : PosCourse) :
    (r.updateActiveLegAndPos g pos).legs = r.legs := by
  unfold Route.updateActiveLegAndPos
  split
  · rfl
  · dsimp only
    split
    · rfl
    · exact ualpAdvance_legs g _ pos

/-- Range invariant of the tracker transition on a non-empty route with a
valid sample: the stored active leg ends in [0, size-1], provided the
previous index was in range or at least the sentinel. -/
lemma updateActiveLegAndPos_range (g : GeoPrims) (r : Route) (pos : PosCourse)
    (hne : r.legs ≠ []) (hv : pos.isValid = true)
    (hsz : r.size ≤ INVALID_INDEX_VALUE)
    (ha : (0 ≤ r.activeLeg ∧ r.activeLeg ≤ r.size - 1) ∨
      INVALID_INDEX_VALUE ≤ r.activeLeg) :
    0 ≤ (r.updateActiveLegAndPos g pos).activeLeg ∧
    (r.updateActiveLegAndPos g pos).activeLeg ≤ r.size - 1 := by
  obtain ⟨hc0, hc1⟩ := ualpClamp_range g r pos hne hsz ha
  unfold Route.updateActiveLegAndPos
  rw [if_neg (by simp [List.isEmpty_iff, hne, hv])]
  dsimp only
  split
  · rename_i hs1
    refine ⟨le_refl 0, ?_⟩
    show (0 : ℤ) ≤ r.size - 1
    omega
  · rename_i hs1
    have hsz2 : 2 ≤ r.size := by
      have hsz1 : 1 ≤ r.size := by
        unfold Route.size
        have := List.length_pos.mpr hne
        omega
      rcases lt_or_eq_of_le hsz1 with h | h
      · omega
      · exact absurd h.symm hs1
    set a2 := if r.ualpClamp g pos = 0 then 1 else r.ualpClamp g pos with ha2
    have ha2r : 1 ≤ a2 ∧ a2 ≤ r.size - 1 := by
      rw [ha2]
      split
      · exact ⟨le_refl 1, by omega⟩
      · rename_i hz
        exact ⟨by omega, hc1⟩
    have hadv := ualpAdvance_activeLeg_range g
      ({ r with
         activeLeg := a2, activePos := pos,
         activeLegResult := (g.distanceMeterToLine pos.pos (r.getPositionAt (a2 - 1)) (r.getPositionAt a2)) })
      pos ha2r.1 ha2r.2
    exact ⟨le_trans zero_le_one hadv.1, hadv.2⟩

/-- The offset scan preserves the number of legs. -/
lemma updateOffsetsLoop_length :
    ∀ (ls : List RouteLeg) (i : ℤ) (offs : ℤ × ℤ × ℤ),
      (updateOffsetsLoop ls i offs).1.length = ls.length := by
  intro ls
  induction ls with
  | nil => intro i offs; rfl
  | cons leg rest ih =>
    intro i offs
    obtain ⟨d, s, a⟩ := offs
    unfold updateOffsetsLoop
    simp [ih]

/-- The distance loop preserves the number of legs. -/
lemma updateDCLoop_length (g : GeoPrims) (r : Route) :
    ∀ (ls : List RouteLeg) (i : ℤ) (last : Option RouteLeg),
      (updateDCLoop g r i last ls).1.length = ls.length := by
  intro ls
  induction ls with
  | nil => intro i last; rfl
  | cons leg rest ih =>
    intro i last
    unfold updateDCLoop
    split
    · rfl
    · simp [ih]

/-- `updateAll` preserves the number of legs. -/
lemma updateAll_legs_length (g : GeoPrims) (r : Route) :
    (r.updateAll g).legs.length = r.legs.length := by
  unfold Route.updateAll Route.updateBoundingRect Route.updateDistancesAndCourse
    Route.updateMagvar Route.updateIndicesAndOffsets
  dsimp only
  rw [updateDCLoop_length, updateOffsetsLoop_length]

/-- `updateAll` stores exactly the clamp of `updateIndicesAndOffsets` into
the active leg; the other update phases never touch it. -/
lemma updateAll_activeLeg (g : GeoPrims) (r : Route) :
    (r.updateAll g).activeLeg =
      if r.activeLeg < INVALID_INDEX_VALUE then max (min r.activeLeg (r.size - 1)) 0
      else r.activeLeg := rfl

/-- C1: on a non-empty route whose length respects the C++ int bound,
`updateAll()` followed by `updateActiveLegAndPos` with a valid sample leaves
the active leg index within [0, size-1]: `updateIndicesAndOffsets` clamps a
previously valid index into range, and `updateActiveLegAndPos` never stores
an index outside the sequence. -/
theorem updateAll_then_updateActiveLegAndPos_range (g : GeoPrims) (r : Route)
    (pos : PosCourse) (hne : r.legs ≠ []) (hv : pos.isValid = true)
    (hsz : (r.legs.length : ℤ) ≤ INVALID_INDEX_VALUE) :
    0 ≤ ((r.updateAll g).updateActiveLegAndPos g pos).activeLeg ∧
    ((r.updateAll g).updateActiveLegAndPos g pos).activeLeg ≤
      ((r.updateAll g).updateActiveLegAndPos g pos).size - 1 := by
  have hlen : (r.updateAll g).legs.length = r.legs.length := updateAll_legs_length g r
  have hne' : (r.updateAll g).legs ≠ [] := by
    intro h
    have h0 : r.legs.length = 0 := by rw [← hlen, h]; rfl
    exact hne (List.length_eq_zero.mp h0)
  have hsize : (r.updateAll g).size = r.size := by
    unfold Route.size
    rw [hlen]
  have hsz' : (r.updateAll g).size ≤ INVALID_INDEX_VALUE := by
    rw [hsize]
    exact hsz
  have hs1 : 1 ≤ r.size := by
    unfold Route.size
    have := List.length_pos.mpr hne
    omega
  have ha' : (0 ≤ (r.updateAll g).activeLeg ∧
      (r.updateAll g).activeLeg ≤ (r.updateAll g).size - 1) ∨
      INVALID_INDEX_VALUE ≤ (r.updateAll g).activeLeg := by
    rw [updateAll_activeLeg, hsize]
    by_cases h : r.activeLeg < INVALID_INDEX_VALUE
    · left
      rw [if_pos h]
      constructor
      · exact le_max_right _ _
      · exact max_le (le_trans (min_le_right _ _) (le_refl _)) (by omega)
    · right
      rw [if_neg h]
      omega
  have hfin := updateActiveLegAndPos_range g (r.updateAll g) pos hne' hv hsz' ha'
  have hlegs2 : ((r.updateAll g).updateActiveLegAndPos g pos).legs = (r.updateAll g).legs :=
    updateActiveLegAndPos_legs g _ pos
  have hsize2 : ((r.updateAll g).updateActiveLegAndPos g pos).size = (r.updateAll g).size := by
    unfold Route.size
    rw [hlegs2]
  exact ⟨hfin.1, by rw [hsize2, hsize]; rw [hsize] at hfin; exact hfin.2⟩

/-- C1 witness: the two-leg route with the trivial oracle and an on-track
sample ends with active leg 1 of 2, inside [0, size-1]. -/
theorem updateAll_then_updateActiveLegAndPos_range_witness :
    0 ≤ ((routeTwo.updateAll geo0).updateActiveLegAndPos geo0
        { pos := mkPos 0 0, course := 0 }).activeLeg ∧
    ((routeTwo.updateAll geo0).updateActiveLegAndPos geo0
        { pos := mkPos 0 0, course := 0 }).activeLeg ≤
      ((routeTwo.updateAll geo0).updateActiveLegAndPos geo0
        { pos := mkPos 0 0, course := 0 }).size - 1 :=
  updateAll_then_updateActiveLegAndPos_range geo0 routeTwo
    { pos := mkPos 0 0, course := 0 } (by decide) (by decide) (by decide)

end LNM
